import Mathlib

/-!
Shallow embedding of the team-betting contract (`contract.py`,
`TeamBettingContract`).  Python dicts become association lists over `String`
keys (insertion order preserved, keys unique in every reachable state),
machine integers become `Nat`/`Int` (Python integers are unbounded, and all
divisions in the contract act on non-negative operands, so Python floor
division agrees with `Nat` division), and raising an exception becomes
returning `Except.error`.
-/

set_option autoImplicit false

namespace Casino

/-- `ONE_NEAR` from `near_sdk_py`: one NEAR in yoctoNEAR. -/
def ONE_NEAR : Nat := 10 ^ 24

/-- `MIN_BET = int(0.5 * 10**24)`.  Python evaluates `0.5 * 10**24` in
binary floating point: `float(10**24) = 999999999999999983222784.0`, so the
stored minimum is `499999999999999991611392`, not exactly `5 * 10^23`. -/
def MIN_BET : Nat := 499999999999999991611392

/-- A bet record stored in `team_a_bets` / `team_b_bets`:
`{"amount": ..., "points": ...}`. -/
structure BetInfo where
  amount : Nat
  points : Nat
deriving DecidableEq, Inhabited

/-- Python `dict` with string keys, modelled as an ordered association
list. -/
abbrev Dict (β : Type) := List (String × β)

/-- `d[k]` lookup: first matching key (keys are unique in reachable
states). -/
def dictLookup {β : Type} (k : String) : Dict β → Option β
  | [] => none
  | (k', v) :: rest => if k = k' then some v else dictLookup k rest

/-- `d[k] = v`: overwrite the entry for `k` if present, else append. -/
def dictInsert {β : Type} (k : String) (v : β) : Dict β → Dict β
  | [] => [(k, v)]
  | (k', v') :: rest =>
      if k = k' then (k, v) :: rest else (k', v') :: dictInsert k v rest

/-- `d[k] += v` if `k in d` else `d[k] = v` (used by
`force_end_game_refund`). -/
def dictAdd (k : String) (v : Int) : Dict Int → Dict Int
  | [] => [(k, v)]
  | (k', v') :: rest =>
      if k = k' then (k', v' + v) :: rest else (k', v') :: dictAdd k v rest

/-- `del d[k]` (used by `withdraw`). -/
def dictRemove {β : Type} (k : String) : Dict β → Dict β
  | [] => []
  | (k', v) :: rest =>
      if k = k' then rest else (k', v) :: dictRemove k rest

/-- Keys of the association list are pairwise distinct — the invariant a
Python `dict` provides for free. -/
abbrev keysNodup {β : Type} (d : Dict β) : Prop := (d.map Prod.fst).Nodup

/-- The exceptions the contract raises, one constructor per distinct
`raise Exception(...)` message reachable from the modelled entry points. -/
inductive ContractError where
  | OnlyAdmin          -- "Only admin can call this function"
  | ContractPaused     -- "Contract is paused"
  | NoActiveGame       -- "No active game"
  | RefundMode         -- "Game is in refund mode, betting disabled"
  | InvalidTeam        -- "Team must be 'A' or 'B'"
  | BelowMinimum       -- "Minimum bet is 0.5 NEAR"
  | BettingEnded       -- "Betting period has ended"
  | TieScore           -- "Cannot end game with tie score"
  | NothingToWithdraw  -- "No balance to withdraw"
deriving DecidableEq, Inhabited

/-- The contract's `self.storage`, with the fields the modelled entry
points read and write.  `game_start_time` and timestamps are in
nanoseconds, `pot_size` is in whole NEAR, stakes and balances in
yoctoNEAR.  Withdrawable balances are `Int` so that the settlement
subtraction `amount - loss` is modelled exactly as Python computes it. -/
structure ContractState where
  admin : String
  paused : Bool
  game_active : Bool
  game_started : Bool
  game_start_time : Nat
  game_duration : Nat
  pot_size : Nat
  commission_rate : Nat
  team_a_bets : Dict BetInfo
  team_b_bets : Dict BetInfo
  team_a_points : Nat
  team_b_points : Nat
  winning_team : String
  force_refund_mode : Bool
  point_rates : List Nat
  withdrawable_balances : Dict Int
deriving DecidableEq, Inhabited

/-- The point-rate lookup inlined in `bet_on_team` and
`calculate_current_points`:
`1` if `hours_elapsed >= len(point_rates)`, else
`point_rates[hours_elapsed]`. -/
def rateAt (point_rates : List Nat) (hours_elapsed : Nat) : Nat :=
  if point_rates.length ≤ hours_elapsed then 1
  else point_rates.getD hours_elapsed 1

/-- The repeat-bet branch of `bet_on_team`: accumulate into the caller's
existing record on this team, or create a fresh record. -/
def addBet (user : String) (amount points : Nat) :
    Dict BetInfo → Dict BetInfo
  | [] => [(user, ⟨amount, points⟩)]
  | (u, b) :: rest =>
      if user = u then (u, ⟨b.amount + amount, b.points + points⟩) :: rest
      else (u, b) :: addBet user amount points rest

/-- `bet_on_team(team)` with the host-supplied call context
(`predecessor_account_id`, `attached_deposit`, `block_timestamp`) passed
explicitly. -/
def bet_on_team (s : ContractState) (caller team : String)
    (deposit block_timestamp : Nat) : Except ContractError ContractState :=
  if s.paused then .error .ContractPaused
  else if s.game_active = false then .error .NoActiveGame
  else if s.force_refund_mode then .error .RefundMode
  else if team ≠ "A" ∧ team ≠ "B" then .error .InvalidTeam
  else if deposit < MIN_BET then .error .BelowMinimum
  else
    let time_elapsed := block_timestamp - s.game_start_time
    if s.game_duration * 1000000000 ≤ time_elapsed then .error .BettingEnded
    else
      let hours_elapsed := time_elapsed / (60 * 60 * 1000000000)
      let point_rate := rateAt s.point_rates hours_elapsed
      let points_earned := (deposit / ONE_NEAR) * point_rate
      if team = "A" then
        .ok { s with
          team_a_bets := addBet caller deposit points_earned s.team_a_bets,
          team_a_points := s.team_a_points + points_earned }
      else
        .ok { s with
          team_b_bets := addBet caller deposit points_earned s.team_b_bets,
          team_b_points := s.team_b_points + points_earned }

/-- `force_end_game_refund()`: every bettor's withdrawable balance is set
to the sum of their recorded bet amounts (team A pass assigns, team B pass
adds if the key already exists). -/
def force_end_game_refund (s : ContractState) (caller : String) :
    Except ContractError ContractState :=
  if caller ≠ s.admin then .error .OnlyAdmin
  else if s.paused then .error .ContractPaused
  else if s.game_active = false then .error .NoActiveGame
  else
    let wbA := s.team_a_bets.foldl
      (fun acc p => dictInsert p.1 ((p.2.amount : Int)) acc) []
    let wb := s.team_b_bets.foldl
      (fun acc p => dictAdd p.1 ((p.2.amount : Int)) acc) wbA
    .ok { s with
      game_active := false,
      force_refund_mode := true,
      withdrawable_balances := wb }

/-- `winning_bets` as selected in `_distribute_payouts_new` by
`f"team_{winning_team.lower()}_bets"` (an unset team name selects an
absent key, i.e. the empty dict). -/
def winningBets (s : ContractState) : Dict BetInfo :=
  if s.winning_team = "A" then s.team_a_bets
  else if s.winning_team = "B" then s.team_b_bets
  else []

/-- `losing_bets` as selected by `'a' if winning_team == 'B' else 'b'`. -/
def losingBets (s : ContractState) : Dict BetInfo :=
  if s.winning_team = "B" then s.team_a_bets else s.team_b_bets

/-- `losing_total_amount = sum(bet["amount"] for bet in losing_bets.values())`. -/
def losingTotalAmount (s : ContractState) : Nat :=
  ((losingBets s).map (fun p => p.2.amount)).sum

/-- `winning_total_points = sum(bet["points"] for bet in winning_bets.values())`. -/
def winningTotalPoints (s : ContractState) : Nat :=
  ((winningBets s).map (fun p => p.2.points)).sum

/-- `commission_amount = (pot_size * commission_rate) // 100`, where
`pot_size` has already been scaled by `ONE_NEAR`. -/
def commissionAmount (s : ContractState) : Nat :=
  s.pot_size * ONE_NEAR * s.commission_rate / 100

/-- `total_to_pay = pot_size + commission_amount`. -/
def totalToPay (s : ContractState) : Nat :=
  s.pot_size * ONE_NEAR + commissionAmount s

/-- Winner branch of `_distribute_payouts_new`: original bet plus, when the
winning side has points, a points-proportional pot share. -/
def winnerBalance (pot_size winning_total_points : Nat) (b : BetInfo) : Int :=
  ((b.amount +
    (if 0 < winning_total_points
     then b.points * pot_size / winning_total_points else 0) : Nat) : Int)

/-- Loser branch of `_distribute_payouts_new`: stake-proportional loss if
the losing side covers `total_to_pay`, else everything is forfeited. -/
def loserBalance (total_to_pay losing_total_amount : Nat) (b : BetInfo) : Int :=
  if total_to_pay ≤ losing_total_amount then
    (b.amount : Int) - ((b.amount * total_to_pay / losing_total_amount : Nat) : Int)
  else 0

/-- `_distribute_payouts_new()`: rebuilds `withdrawable_balances` from
scratch — first the winners' loop, then the losers' loop (whose
assignments overwrite any entry the winners' loop made for the same
account). -/
def distribute_payouts_new (s : ContractState) : ContractState :=
  let pot_size := s.pot_size * ONE_NEAR
  let wbW := (winningBets s).foldl
    (fun acc p =>
      dictInsert p.1 (winnerBalance pot_size (winningTotalPoints s) p.2) acc) []
  let wb := (losingBets s).foldl
    (fun acc p =>
      dictInsert p.1 (loserBalance (totalToPay s) (losingTotalAmount s) p.2) acc) wbW
  { s with withdrawable_balances := wb }

/-- `end_game()`: admin-only, rejects ties outright, otherwise records the
winner, deactivates the game and distributes payouts. -/
def end_game (s : ContractState) (caller : String) :
    Except ContractError ContractState :=
  if caller ≠ s.admin then .error .OnlyAdmin
  else if s.paused then .error .ContractPaused
  else if s.game_active = false then .error .NoActiveGame
  else if s.team_a_points = s.team_b_points then .error .TieScore
  else
    let winning_team := if s.team_b_points < s.team_a_points then "A" else "B"
    .ok (distribute_payouts_new
      { s with winning_team := winning_team, game_active := false })

/-- `withdraw()`: the caller's entry is deleted from
`withdrawable_balances` and only then is the transfer (the returned
amount) initiated — the returned state is the one in force during the
transfer. -/
def withdraw (s : ContractState) (caller : String) :
    Except ContractError (ContractState × Int) :=
  if s.paused then .error .ContractPaused
  else
    match dictLookup caller s.withdrawable_balances with
    | none => .error .NothingToWithdraw
    | some amount =>
        if amount ≤ 0 then .error .NothingToWithdraw
        else
          .ok ({ s with
                 withdrawable_balances :=
                   dictRemove caller s.withdrawable_balances }, amount)

/-- `withdraw` as a state transition: a failed call aborts atomically and
leaves the state unchanged. -/
def withdrawStep (s : ContractState) (caller : String) :
    ContractState × Except ContractError Int :=
  match withdraw s caller with
  | .ok (s', amt) => (s', .ok amt)
  | .error e => (s, .error e)

/-- `calculate_current_points(amount_near)` view: `0` when no game is
active, else the argument times the current rate — the argument is NOT
divided by `ONE_NEAR`. -/
def calculate_current_points (s : ContractState)
    (block_timestamp amount_near : Nat) : Nat :=
  if s.game_active = false then 0
  else
    let time_elapsed := block_timestamp - s.game_start_time
    let hours_elapsed := time_elapsed / (60 * 60 * 1000000000)
    amount_near * rateAt s.point_rates hours_elapsed

/-- A participant's total recorded stake, over both sides. -/
def totalStakeOf (s : ContractState) (u : String) : Nat :=
  ((dictLookup u s.team_a_bets).map BetInfo.amount).getD 0 +
  ((dictLookup u s.team_b_bets).map BetInfo.amount).getD 0

/-! ### Dictionary lemmas -/

theorem dictLookup_insert_self {β : Type} (k : String) (v : β) (d : Dict β) :
    dictLookup k (dictInsert k v d) = some v := by
  induction d with
  | nil => simp [dictLookup, dictInsert]
  | cons p rest ih =>
      obtain ⟨k', v'⟩ := p
      by_cases h : k = k' <;> simp [dictLookup, dictInsert, h, ih]

theorem dictLookup_insert_ne {β : Type} {k k' : String} (v : β) (d : Dict β)
    (h : k ≠ k') : dictLookup k (dictInsert k' v d) = dictLookup k d := by
  induction d with
  | nil => simp [dictLookup, dictInsert, h]
  | cons p rest ih =>
      obtain ⟨k₀, v₀⟩ := p
      by_cases h0 : k' = k₀
      · subst h0; simp [dictLookup, dictInsert, h]
      · by_cases h1 : k = k₀ <;> simp [dictLookup, dictInsert, h0, h1, ih]

theorem dictLookup_add_self (k : String) (v : Int) (d : Dict Int) :
    dictLookup k (dictAdd k v d) =
      some ((dictLookup k d).getD 0 + v) := by
  induction d with
  | nil => simp [dictLookup, dictAdd]
  | cons p rest ih =>
      obtain ⟨k', v'⟩ := p
      by_cases h : k = k' <;> simp [dictLookup, dictAdd, h, ih]

theorem dictLookup_add_ne {k k' : String} (v : Int) (d : Dict Int)
    (h : k ≠ k') : dictLookup k (dictAdd k' v d) = dictLookup k d := by
  induction d with
  | nil => simp [dictLookup, dictAdd, h]
  | cons p rest ih =>
      obtain ⟨k₀, v₀⟩ := p
      by_cases h0 : k' = k₀
      · subst h0; simp [dictLookup, dictAdd, h]
      · by_cases h1 : k = k₀ <;> simp [dictLookup, dictAdd, h0, h1, ih]

theorem dictLookup_eq_none_iff {β : Type} (k : String) (d : Dict β) :
    dictLookup k d = none ↔ k ∉ d.map Prod.fst := by
  induction d with
  | nil => simp [dictLookup]
  | cons p rest ih =>
      obtain ⟨k', v'⟩ := p
      by_cases h : k = k' <;> simp [dictLookup, h, ih]

theorem dictLookup_remove_self {β : Type} (k : String) (d : Dict β)
    (hnd : keysNodup d) : dictLookup k (dictRemove k d) = none := by
  induction d with
  | nil => simp [dictRemove, dictLookup]
  | cons p rest ih =>
      obtain ⟨k', v'⟩ := p
      rw [keysNodup, List.map_cons, List.nodup_cons] at hnd
      by_cases h : k = k'
      · subst h
        simpa [dictRemove, dictLookup_eq_none_iff] using hnd.1
      · simp [dictRemove, dictLookup, h, ih hnd.2]

/-- Looking up a key absent from `l` after the insert-fold over `l` just
looks it up in the initial accumulator. -/
theorem foldl_insert_lookup_of_notmem {β : Type} (f : String × BetInfo → β)
    (u : String) (l : Dict BetInfo) (init : Dict β)
    (h : dictLookup u l = none) :
    dictLookup u
      (l.foldl (fun acc p => dictInsert p.1 (f p) acc) init) =
    dictLookup u init := by
  induction l generalizing init with
  | nil => rfl
  | cons p rest ih =>
      obtain ⟨k, b⟩ := p
      rw [dictLookup] at h
      by_cases hk : u = k
      · simp [hk] at h
      · simp only [hk, if_false] at h
        rw [List.foldl_cons, ih _ h, dictLookup_insert_ne _ _ hk]

/-- Looking up a key of `l` (keys distinct) after the insert-fold over `l`
yields the image of its record, whatever the initial accumulator. -/
theorem foldl_insert_lookup_of_mem {β : Type} (f : String × BetInfo → β)
    (u : String) (b : BetInfo) (l : Dict BetInfo) (init : Dict β)
    (hnd : keysNodup l) (h : dictLookup u l = some b) :
    dictLookup u
      (l.foldl (fun acc p => dictInsert p.1 (f p) acc) init) =
    some (f (u, b)) := by
  induction l generalizing init with
  | nil => simp [dictLookup] at h
  | cons p rest ih =>
      obtain ⟨k, v⟩ := p
      rw [keysNodup, List.map_cons, List.nodup_cons] at hnd
      rw [dictLookup] at h
      by_cases hk : u = k
      · simp only [hk, if_true, Option.some.injEq] at h
        subst h hk
        have hrest : dictLookup u rest = none :=
          (dictLookup_eq_none_iff u rest).mpr hnd.1
        rw [List.foldl_cons, foldl_insert_lookup_of_notmem f u rest _ hrest,
          dictLookup_insert_self]
      · simp only [hk, if_false] at h
        rw [List.foldl_cons, ih _ hnd.2 h]

/-- Analogue of `foldl_insert_lookup_of_notmem` for the accumulating fold
of `force_end_game_refund`. -/
theorem foldl_add_lookup_of_notmem (g : String × BetInfo → Int)
    (u : String) (l : Dict BetInfo) (init : Dict Int)
    (h : dictLookup u l = none) :
    dictLookup u
      (l.foldl (fun acc p => dictAdd p.1 (g p) acc) init) =
    dictLookup u init := by
  induction l generalizing init with
  | nil => rfl
  | cons p rest ih =>
      obtain ⟨k, b⟩ := p
      rw [dictLookup] at h
      by_cases hk : u = k
      · simp [hk] at h
      · simp only [hk, if_false] at h
        rw [List.foldl_cons, ih _ h, dictLookup_add_ne _ _ hk]

/-- Analogue of `foldl_insert_lookup_of_mem` for the accumulating fold of
`force_end_game_refund`. -/
theorem foldl_add_lookup_of_mem (g : String × BetInfo → Int)
    (u : String) (b : BetInfo) (l : Dict BetInfo) (init : Dict Int)
    (hnd : keysNodup l) (h : dictLookup u l = some b) :
    dictLookup u
      (l.foldl (fun acc p => dictAdd p.1 (g p) acc) init) =
    some ((dictLookup u init).getD 0 + g (u, b)) := by
  induction l generalizing init with
  | nil => simp [dictLookup] at h
  | cons p rest ih =>
      obtain ⟨k, v⟩ := p
      rw [keysNodup, List.map_cons, List.nodup_cons] at hnd
      rw [dictLookup] at h
      by_cases hk : u = k
      · simp only [hk, if_true, Option.some.injEq] at h
        subst h hk
        have hrest : dictLookup u rest = none :=
          (dictLookup_eq_none_iff u rest).mpr hnd.1
        rw [List.foldl_cons, foldl_add_lookup_of_notmem g u rest _ hrest,
          dictLookup_add_self]
      · simp only [hk, if_false] at h
        rw [List.foldl_cons, ih _ hnd.2 h, dictLookup_add_ne _ _ hk]

/-- A record reachable by lookup contributes at most the whole points
sum. -/
theorem points_le_sum (u : String) (b : BetInfo) (l : Dict BetInfo)
    (h : dictLookup u l = some b) :
    b.points ≤ (l.map (fun p => p.2.points)).sum := by
  induction l with
  | nil => simp [dictLookup] at h
  | cons p rest ih =>
      obtain ⟨k, v⟩ := p
      rw [dictLookup] at h
      by_cases hk : u = k
      · simp only [hk, if_true, Option.some.injEq] at h
        subst h
        simp [Nat.le_add_right]
      · simp only [hk, if_false] at h
        calc b.points ≤ (rest.map (fun p => p.2.points)).sum := ih h
          _ ≤ _ := by simp [Nat.le_add_left]

/-- The points `bet_on_team` computes for a deposit attached at a given
`block_timestamp` (the body of lines 161–177 of `contract.py`). -/
def pointsEarned (s : ContractState) (deposit block_timestamp : Nat) : Nat :=
  (deposit / ONE_NEAR) *
    rateAt s.point_rates
      ((block_timestamp - s.game_start_time) / (60 * 60 * 1000000000))

/-! ### Concrete states used to instantiate the theorems -/

/-- The point-rate table `initialize` installs. -/
def DEFAULT_RATES : List Nat := [24, 23, 22, 21, 20, 19, 18, 17, 16, 15]

/-- A freshly started round (the state `start_game` leaves behind): pot
1 NEAR, 10% commission, 10-hour duration, empty ledger. -/
def startedState : ContractState :=
  { admin := "admin", paused := false, game_active := true,
    game_started := true, game_start_time := 0, game_duration := 36000,
    pot_size := 1, commission_rate := 10,
    team_a_bets := [], team_b_bets := [],
    team_a_points := 0, team_b_points := 0,
    winning_team := "", force_refund_mode := false,
    point_rates := DEFAULT_RATES, withdrawable_balances := [] }

/-- A round with one 1-NEAR bettor per side, both betting in the first
hour: 24 points each, a tie. -/
def tieState : ContractState :=
  { startedState with
    pot_size := 5,
    team_a_bets := [("alice", ⟨ONE_NEAR, 24⟩)],
    team_b_bets := [("bob", ⟨ONE_NEAR, 24⟩)],
    team_a_points := 24, team_b_points := 24 }

/-! ### C1 — tie handling in `end_game` -/

/-- C1 counterexample: on a tied round (`team_a_points = team_b_points`,
both sides staked), `end_game` does NOT take the refund-all path — it
rejects the call with the tie error and sets no withdrawable amount for
anyone, contrary to the claim that settlement of a tied round refunds
every participant's stake. -/
theorem C1_counterexample :
    tieState.team_a_points = tieState.team_b_points ∧
    end_game tieState "admin" = Except.error ContractError.TieScore := by
  exact ⟨rfl, rfl⟩

/-- C1 (amended): on a tied round, `end_game` (called by the admin while
unpaused and active) fails with the tie error, so no settlement happens,
no withdrawable amounts are produced and no commission is charged; the
refund-all path exists only as the separate `force_end_game_refund`
operation. -/
theorem C1_end_game_tie_rejected (s : ContractState) (c : String)
    (hc : c = s.admin) (hp : s.paused = false) (ha : s.game_active = true)
    (ht : s.team_a_points = s.team_b_points) :
    end_game s c = Except.error ContractError.TieScore := by
  simp [end_game, hc, hp, ha, ht]

/-- C1 witness. -/
theorem C1_end_game_tie_rejected_witness :
    end_game tieState "admin" = Except.error ContractError.TieScore :=
  C1_end_game_tie_rejected tieState "admin" rfl rfl rfl rfl

/-! ### C9 — pause blocks withdrawal -/

/-- C9: while the contract is paused, `withdraw` fails with the paused
error for every caller, and the state — in particular the
withdrawable-balances map — is left unchanged, so a settled balance
cannot be claimed until the admin unpauses. -/
theorem C9_paused_blocks_withdraw (s : ContractState) (u : String)
    (hp : s.paused = true) :
    withdrawStep s u = (s, Except.error ContractError.ContractPaused) := by
  simp [withdrawStep, withdraw, hp]

/-- A paused state holding a positive settled balance for `alice`. -/
def pausedState : ContractState :=
  { startedState with
    paused := true,
    withdrawable_balances := [("alice", (ONE_NEAR : Int))] }

/-- C9 witness. -/
theorem C9_paused_blocks_withdraw_witness :
    withdrawStep pausedState "alice" =
      (pausedState, Except.error ContractError.ContractPaused) :=
  C9_paused_blocks_withdraw pausedState "alice" rfl

/-! ### C6 — point rate and points credited by a bet -/

/-- Nanosecond bookkeeping: `t` seconds of elapsed time yield
`t / 3600` whole hours. -/
theorem hours_of_seconds (t : Nat) :
    t * 1000000000 / (60 * 60 * 1000000000) = t / 3600 := by
  rw [show (60 * 60 * 1000000000 : Nat) = 3600 * 1000000000 by norm_num]
  exact Nat.mul_div_mul_right t 3600 (by norm_num)

/-- C6: a bet of amount `a` accepted `t` seconds after round start credits
`floor(a / ONE_NEAR) * rateAt table (t / 3600)` points to the chosen
side's aggregate; and the rate is `table[hours]` while `hours <
len(table)` and `1` for every elapsed time of at least
`3600 * len(table)` seconds. -/
theorem C6_points_of_bet (s : ContractState) (u team : String)
    (deposit t : Nat) (s' : ContractState)
    (h : bet_on_team s u team deposit
          (s.game_start_time + t * 1000000000) = Except.ok s') :
    ((team = "A" → s'.team_a_points =
        s.team_a_points + (deposit / ONE_NEAR) * rateAt s.point_rates (t / 3600)) ∧
     (team = "B" → s'.team_b_points =
        s.team_b_points + (deposit / ONE_NEAR) * rateAt s.point_rates (t / 3600))) ∧
    (∀ (tb : List Nat) (t' : Nat),
       (t' / 3600 < tb.length → rateAt tb (t' / 3600) = tb.getD (t' / 3600) 1) ∧
       (3600 * tb.length ≤ t' → rateAt tb (t' / 3600) = 1)) := by
  constructor
  · simp only [bet_on_team, Nat.add_sub_cancel_left, hours_of_seconds] at h
    split at h
    · cases h
    · split at h
      · cases h
      · split at h
        · cases h
        · split at h
          · cases h
          · split at h
            · cases h
            · split at h
              · cases h
              · split at h
                · rename_i hteam
                  have hs := Except.ok.inj h
                  subst hs
                  subst hteam
                  exact ⟨fun _ => rfl, fun hB => absurd hB (by decide)⟩
                · rename_i hvalid hteam
                  have hs := Except.ok.inj h
                  subst hs
                  exact ⟨fun hA => absurd hA hteam, fun _ => rfl⟩
  · intro tb t'
    constructor
    · intro hlt
      simp [rateAt, Nat.not_le.mpr hlt]
    · intro hge
      have : tb.length ≤ t' / 3600 := by
        rw [Nat.le_div_iff_mul_le (by norm_num)]
        omega
      simp [rateAt, this]

/-- The state after a 2-NEAR bet on side A by `carol` in the second hour
of `startedState`'s round. -/
def betHour1State : ContractState :=
  (bet_on_team startedState "carol" "A" (2 * ONE_NEAR)
    (3600 * 1000000000)).toOption.getD default

/-- C6 witness: the second-hour rate is `table[1] = 23`, so the 2-NEAR bet
credits 46 points; and the rate floors to 1 from 36000 s on. -/
theorem C6_points_of_bet_witness :
    betHour1State.team_a_points =
      startedState.team_a_points +
        (2 * ONE_NEAR / ONE_NEAR) * rateAt startedState.point_rates (3600 / 3600) ∧
    rateAt DEFAULT_RATES (3600 / 3600) = 23 ∧
    rateAt DEFAULT_RATES (37000 / 3600) = 1 :=
  ⟨((C6_points_of_bet startedState "carol" "A" (2 * ONE_NEAR) 3600
      betHour1State rfl).1).1 rfl,
   by decide,
   ((C6_points_of_bet startedState "carol" "A" (2 * ONE_NEAR) 3600
      betHour1State rfl).2 DEFAULT_RATES 37000).2 (by decide)⟩

/-! ### C10 — the live preview forgets to divide by `ONE_NEAR` -/

/-- C10: during an active game the preview returns its argument times the
current rate (no division by `ONE_NEAR`); with no active game it returns
`0`; and a successful bet of deposit `d` at the same timestamp credits
exactly `calculate_current_points` applied to `d / ONE_NEAR` — not to
`d`. -/
theorem C10_preview_relation (s : ContractState) (ts x : Nat) :
    (s.game_active = true →
      calculate_current_points s ts x =
        x * rateAt s.point_rates
              ((ts - s.game_start_time) / (60 * 60 * 1000000000))) ∧
    (s.game_active = false → calculate_current_points s ts x = 0) ∧
    (∀ (u team : String) (d : Nat) (s' : ContractState),
       bet_on_team s u team d ts = Except.ok s' →
       ((team = "A" → s'.team_a_points =
           s.team_a_points + calculate_current_points s ts (d / ONE_NEAR)) ∧
        (team = "B" → s'.team_b_points =
           s.team_b_points + calculate_current_points s ts (d / ONE_NEAR)))) := by
  refine ⟨fun ha => by simp [calculate_current_points, ha],
          fun ha => by simp [calculate_current_points, ha], ?_⟩
  intro u team d s' h
  simp only [bet_on_team] at h
  split at h
  · cases h
  · split at h
    · cases h
    · split at h
      · cases h
      · split at h
        · cases h
        · split at h
          · cases h
          · split at h
            · cases h
            · rename_i hpause hactiveF hrefund hteamvalid hmin hwindow
              have hactive : s.game_active = true := by
                simpa using hactiveF
              simp only [calculate_current_points, hactive]
              split at h
              · rename_i hteam
                have hs := Except.ok.inj h
                subst hs
                subst hteam
                exact ⟨fun _ => rfl, fun hB => absurd hB (by decide)⟩
              · rename_i hteam
                have hs := Except.ok.inj h
                subst hs
                exact ⟨fun hA => absurd hA hteam, fun _ => rfl⟩

/-- C10 witness: in the active `startedState` at time 0 the preview of 7
is `7 * 24` (it does not divide by the token unit), and after a 2-NEAR bet
the credited points equal the preview of `deposit / ONE_NEAR`. -/
theorem C10_preview_relation_witness :
    calculate_current_points startedState 0 7 =
      7 * rateAt startedState.point_rates
            ((0 - startedState.game_start_time) / (60 * 60 * 1000000000)) ∧
    betHour1State.team_a_points =
      startedState.team_a_points +
        calculate_current_points startedState (3600 * 1000000000)
          (2 * ONE_NEAR / ONE_NEAR) :=
  ⟨(C10_preview_relation startedState 0 7).1 rfl,
   (((C10_preview_relation startedState (3600 * 1000000000) 0).2.2
      "carol" "A" (2 * ONE_NEAR) betHour1State rfl).1) rfl⟩

/-! ### C7 — repeat bets -/

/-- Repeating a bet updates the first (and in reachable states, only)
record held by the user, summing amounts and points. -/
theorem dictLookup_addBet_self (u : String) (a p : Nat)
    (d : Dict BetInfo) (b : BetInfo) (h : dictLookup u d = some b) :
    dictLookup u (addBet u a p d) =
      some ⟨b.amount + a, b.points + p⟩ := by
  induction d with
  | nil => simp [dictLookup] at h
  | cons q rest ih =>
      obtain ⟨k, v⟩ := q
      rw [dictLookup] at h
      by_cases hk : u = k
      · subst hk
        simp only [if_true] at h
        rw [Option.some.injEq] at h
        subst h
        simp [addBet, dictLookup]
      · simp only [hk, if_false] at h
        simp [addBet, dictLookup, hk, ih h]

/-- The run that falsifies C7's side-match requirement: `walt` bets one
NEAR on A, then bets one NEAR on B — the second bet is accepted. -/
def c7AfterA : ContractState :=
  (bet_on_team startedState "walt" "A" ONE_NEAR 0).toOption.getD default

/-- The state after `walt`'s follow-up bet on the other side. -/
def c7AfterB : ContractState :=
  (bet_on_team c7AfterA "walt" "B" ONE_NEAR 0).toOption.getD default

/-- C7 counterexample: a participant who already has a bet record (on
side A) places a repeat bet on side B, and the call is NOT rejected — it
succeeds and creates an independent record on side B, contrary to the
claim that a repeat bet's side must match the existing record's side or
the call is rejected. -/
theorem C7_counterexample :
    bet_on_team startedState "walt" "A" ONE_NEAR 0 = Except.ok c7AfterA ∧
    dictLookup "walt" c7AfterA.team_a_bets = some ⟨ONE_NEAR, 24⟩ ∧
    bet_on_team c7AfterA "walt" "B" ONE_NEAR 0 = Except.ok c7AfterB ∧
    dictLookup "walt" c7AfterB.team_b_bets = some ⟨ONE_NEAR, 24⟩ ∧
    dictLookup "walt" c7AfterB.team_a_bets = some ⟨ONE_NEAR, 24⟩ := by
  exact ⟨rfl, rfl, rfl, rfl, rfl⟩

/-- C7 (amended): a repeat bet on the SAME side as the existing record is
accumulated into it — amount and points are each summed — and the side's
aggregate points are incremented by (not replaced with) the newly earned
points; a repeat bet on the other side is not rejected (see the
counterexample) but tracked as a separate record on that side. -/
theorem C7_repeat_bet_accumulates (s : ContractState) (u : String)
    (deposit ts : Nat) (b : BetInfo) (s' : ContractState) :
    (dictLookup u s.team_a_bets = some b →
      bet_on_team s u "A" deposit ts = Except.ok s' →
      dictLookup u s'.team_a_bets =
        some ⟨b.amount + deposit, b.points + pointsEarned s deposit ts⟩ ∧
      s'.team_a_points = s.team_a_points + pointsEarned s deposit ts) ∧
    (dictLookup u s.team_b_bets = some b →
      bet_on_team s u "B" deposit ts = Except.ok s' →
      dictLookup u s'.team_b_bets =
        some ⟨b.amount + deposit, b.points + pointsEarned s deposit ts⟩ ∧
      s'.team_b_points = s.team_b_points + pointsEarned s deposit ts) := by
  constructor
  · intro hb h
    simp only [bet_on_team] at h
    split at h
    · cases h
    · split at h
      · cases h
      · split at h
        · cases h
        · split at h
          · cases h
          · split at h
            · cases h
            · split at h
              · cases h
              · split at h
                · have hs := Except.ok.inj h
                  subst hs
                  exact ⟨dictLookup_addBet_self u deposit _ _ b hb, rfl⟩
                · rename_i hteam
                  exact absurd trivial hteam
  · intro hb h
    simp only [bet_on_team] at h
    split at h
    · cases h
    · split at h
      · cases h
      · split at h
        · cases h
        · split at h
          · cases h
          · split at h
            · cases h
            · split at h
              · cases h
              · split at h
                · rename_i hteam
                  exact absurd hteam (by decide)
                · have hs := Except.ok.inj h
                  subst hs
                  exact ⟨dictLookup_addBet_self u deposit _ _ b hb, rfl⟩

/-- The state after `walt` doubles down on side A with a second, 2-NEAR
first-hour bet. -/
def c7AfterAA : ContractState :=
  (bet_on_team c7AfterA "walt" "A" (2 * ONE_NEAR) 0).toOption.getD default

/-- C7 witness: `walt`'s repeat 2-NEAR bet on side A merges into the
existing record — amounts `1 + 2` NEAR, points `24 + 48` — and team A's
aggregate rises by 48. -/
theorem C7_repeat_bet_accumulates_witness :
    dictLookup "walt" c7AfterAA.team_a_bets =
      some ⟨ONE_NEAR + 2 * ONE_NEAR, 24 + pointsEarned c7AfterA (2 * ONE_NEAR) 0⟩ ∧
    c7AfterAA.team_a_points =
      c7AfterA.team_a_points + pointsEarned c7AfterA (2 * ONE_NEAR) 0 :=
  (C7_repeat_bet_accumulates c7AfterA "walt" (2 * ONE_NEAR) 0
      ⟨ONE_NEAR, 24⟩ c7AfterAA).1 rfl rfl

/-! ### C4 — force refund returns exact stakes -/

/-- C4: after a successful `force_end_game_refund`, every participant who
has a bet record receives a withdrawable amount equal to their total
recorded stake — the sum of their side-A and side-B record amounts, i.e.
of all their accumulated bets — with no commission and no pot
distribution, regardless of points. -/
theorem C4_force_refund_exact (s : ContractState) (c : String)
    (s' : ContractState) (u : String)
    (hndA : keysNodup s.team_a_bets) (hndB : keysNodup s.team_b_bets)
    (h : force_end_game_refund s c = Except.ok s')
    (hne : dictLookup u s.team_a_bets ≠ none ∨
           dictLookup u s.team_b_bets ≠ none) :
    dictLookup u s'.withdrawable_balances =
      some ((totalStakeOf s u : Nat) : Int) := by
  simp only [force_end_game_refund] at h
  split at h
  · cases h
  · split at h
    · cases h
    · split at h
      · cases h
      · have hs := Except.ok.inj h
        subst hs
        simp only []
        rcases hb : dictLookup u s.team_b_bets with _ | b
        · rcases ha : dictLookup u s.team_a_bets with _ | a
          · rw [ha, hb] at hne
            simp at hne
          · rw [foldl_add_lookup_of_notmem _ u _ _ hb,
              foldl_insert_lookup_of_mem _ u a _ _ hndA ha]
            simp [totalStakeOf, ha, hb]
        · rw [foldl_add_lookup_of_mem _ u b _ _ hndB hb]
          rcases ha : dictLookup u s.team_a_bets with _ | a
          · rw [foldl_insert_lookup_of_notmem _ u _ _ ha]
            simp [totalStakeOf, ha, hb, dictLookup]
          · rw [foldl_insert_lookup_of_mem _ u a _ _ hndA ha]
            simp [totalStakeOf, ha, hb]

/-- An open round with stakes of 1 NEAR (`alice`, side A, 24 points) and
2 NEAR (`bob`, side B, 46 points). -/
def twoBettorState : ContractState :=
  { startedState with
    team_a_bets := [("alice", ⟨ONE_NEAR, 24⟩)],
    team_b_bets := [("bob", ⟨2 * ONE_NEAR, 46⟩)],
    team_a_points := 24, team_b_points := 46 }

/-- The state `force_end_game_refund` produces from `twoBettorState`. -/
def refundedState : ContractState :=
  (force_end_game_refund twoBettorState "admin").toOption.getD default

/-- C4 witness: after the force refund, `alice` can withdraw exactly her
1-NEAR stake and `bob` exactly his 2-NEAR stake. -/
theorem C4_force_refund_exact_witness :
    dictLookup "alice" refundedState.withdrawable_balances =
      some ((totalStakeOf twoBettorState "alice" : Nat) : Int) ∧
    dictLookup "bob" refundedState.withdrawable_balances =
      some ((totalStakeOf twoBettorState "bob" : Nat) : Int) :=
  ⟨C4_force_refund_exact twoBettorState "admin" refundedState "alice"
    (by decide) (by decide) rfl (Or.inl (by decide)),
   C4_force_refund_exact twoBettorState "admin" refundedState "bob"
    (by decide) (by decide) rfl (Or.inr (by decide))⟩

/-! ### C5 — zero-before-transfer withdrawal -/

/-- C5: a successful `withdraw` removes the caller's balance before the
transfer is initiated — in the state the transfer runs against, the
caller's entry is already gone — so a second (or reentrant) `withdraw`
immediately after fails with `NothingToWithdraw`; and `withdraw` fails
with `NothingToWithdraw` whenever the caller has no record with a
positive withdrawable balance. -/
theorem C5_withdraw_zero_before_transfer (s : ContractState) (u : String)
    (hnd : keysNodup s.withdrawable_balances) :
    (∀ (s' : ContractState) (amt : Int),
        withdraw s u = Except.ok (s', amt) →
        dictLookup u s'.withdrawable_balances = none ∧
        withdraw s' u = Except.error ContractError.NothingToWithdraw) ∧
    (s.paused = false →
      (∀ a : Int, dictLookup u s.withdrawable_balances = some a → a ≤ 0) →
      withdraw s u = Except.error ContractError.NothingToWithdraw) := by
  constructor
  · intro s' amt h
    simp only [withdraw] at h
    split at h
    · cases h
    · rename_i hpause
      split at h
      · cases h
      · rename_i a ha
        split at h
        · cases h
        · have hpair := Except.ok.inj h
          have hstate :
              ({ s with
                  withdrawable_balances :=
                    dictRemove u s.withdrawable_balances } : ContractState)
                = s' :=
            congrArg Prod.fst hpair
          subst hstate
          have hrm : dictLookup u (dictRemove u s.withdrawable_balances) = none :=
            dictLookup_remove_self u s.withdrawable_balances hnd
          constructor
          · simpa using hrm
          · simp [withdraw, hpause, hrm]
  · intro hp hall
    simp only [withdraw, hp, Bool.false_eq_true, if_false]
    rcases ha : dictLookup u s.withdrawable_balances with _ | a
    · rfl
    · have := hall a ha
      simp [this]

/-- A settled state in which `alice` has 5 yoctoNEAR withdrawable. -/
def balanceState : ContractState :=
  { startedState with withdrawable_balances := [("alice", (5 : Int))] }

/-- `balanceState` after `alice` has withdrawn. -/
def drainedState : ContractState :=
  { balanceState with withdrawable_balances := [] }

/-- C5 witness: after `alice`'s successful withdrawal her entry is gone
from the state the transfer sees, and withdrawing again fails with
`NothingToWithdraw`. -/
theorem C5_withdraw_zero_before_transfer_witness :
    dictLookup "alice" drainedState.withdrawable_balances = none ∧
    withdraw drainedState "alice" =
      Except.error ContractError.NothingToWithdraw :=
  (C5_withdraw_zero_before_transfer balanceState "alice" (by decide)).1
    drainedState 5 rfl

/-! ### C3 — loser refunds -/

/-- C3: in a settled round, each record on the losing side receives
`stake - floor(stake * total_to_pay / losing_side_total_stake)` when the
losing side's total stake covers `total_to_pay = pot_size + commission`
(with `commission = floor(pot_size * commission_rate / 100)`), and `0`
otherwise. -/
theorem C3_loser_refund (s : ContractState) (u : String) (b : BetInfo)
    (hndL : keysNodup (losingBets s))
    (hu : dictLookup u (losingBets s) = some b) :
    dictLookup u (distribute_payouts_new s).withdrawable_balances =
      some (if totalToPay s ≤ losingTotalAmount s then
              (b.amount : Int) -
                ((b.amount * totalToPay s / losingTotalAmount s : Nat) : Int)
            else 0) := by
  simp only [distribute_payouts_new]
  rw [foldl_insert_lookup_of_mem _ u b _ _ hndL hu]
  rfl

/-- A settled round: side A won with `alice`'s single 2-NEAR, 48-point
bet; side B (`bob`, 3 NEAR, 0 points) lost.  Pot 1 NEAR, commission
10%. -/
def settledState : ContractState :=
  { startedState with
    winning_team := "A", game_active := false,
    team_a_bets := [("alice", ⟨2 * ONE_NEAR, 48⟩)],
    team_b_bets := [("bob", ⟨3 * ONE_NEAR, 0⟩)],
    team_a_points := 48, team_b_points := 0 }

/-- C3 witness: `total_to_pay = 1.1 NEAR ≤ 3 NEAR`, so `bob` is refunded
`3 - 1.1 = 1.9` NEAR. -/
theorem C3_loser_refund_witness :
    dictLookup "bob"
        (distribute_payouts_new settledState).withdrawable_balances =
      some (1900000000000000000000000 : Int) :=
  (C3_loser_refund settledState "bob" ⟨3 * ONE_NEAR, 0⟩
      (by decide) rfl).trans (by decide)

/-! ### C2 — winner payouts -/

/-- The run that falsifies C2 for dual-side bettors: `walt` bets 1 NEAR
on A in the first hour (24 points), then twice `ONE_NEAR - 1` on B (0
points each, since sub-unit amounts floor to zero whole tokens), and the
admin settles.  A wins 24 : 0. -/
def c2Run : Except ContractError ContractState :=
  (bet_on_team startedState "walt" "A" ONE_NEAR 0).bind (fun s1 =>
    (bet_on_team s1 "walt" "B" (ONE_NEAR - 1) 0).bind (fun s2 =>
      (bet_on_team s2 "walt" "B" (ONE_NEAR - 1) 0).bind (fun s3 =>
        end_game s3 "admin")))

/-- The settled state `c2Run` reaches. -/
def c2Final : ContractState := c2Run.toOption.getD default

/-- C2 counterexample: `walt` holds a record on the winning side (1 NEAR,
24 points, and the winning side's total is 24 points with a 1-NEAR pot),
so the claim prescribes `withdrawable = stake + floor(points * pot /
total_points) = 2 NEAR`; but because `walt` also bet on the losing side,
the losers' loop overwrites his entry and he actually gets his losing
refund of `0.9 NEAR - 2`. -/
theorem C2_counterexample :
    c2Run = Except.ok c2Final ∧
    c2Final.winning_team = "A" ∧
    dictLookup "walt" (winningBets c2Final) = some ⟨ONE_NEAR, 24⟩ ∧
    winningTotalPoints c2Final = 24 ∧
    c2Final.pot_size * ONE_NEAR = ONE_NEAR ∧
    dictLookup "walt" c2Final.withdrawable_balances =
      some ((899999999999999999999998 : Nat) : Int) ∧
    ((ONE_NEAR + 24 * ONE_NEAR / 24 : Nat) : Int) ≠
      ((899999999999999999999998 : Nat) : Int) := by
  exact ⟨rfl, rfl, rfl, rfl, rfl, rfl, by decide⟩

/-- C2 (amended): each record on the winning side whose participant has
NO record on the losing side receives `withdrawable = stake +
floor(points * pot_size / winning_side_total_points)` when the winning
side has points, and `stake` when it has none; a participant with records
on both sides instead ends up with the losing-side refund, because the
losers' loop overwrites the winners' entry (see the counterexample). -/
theorem C2_winner_payout (s : ContractState) (u : String) (b : BetInfo)
    (hndW : keysNodup (winningBets s))
    (hu : dictLookup u (winningBets s) = some b)
    (hl : dictLookup u (losingBets s) = none) :
    dictLookup u (distribute_payouts_new s).withdrawable_balances =
      some (((b.amount +
          (if 0 < winningTotalPoints s then
             b.points * (s.pot_size * ONE_NEAR) / winningTotalPoints s
           else 0) : Nat) : Int)) := by
  simp only [distribute_payouts_new]
  rw [foldl_insert_lookup_of_notmem _ u _ _ hl,
    foldl_insert_lookup_of_mem _ u b _ _ hndW hu]
  rfl

/-- C2 witness: winner-only `alice` (2 NEAR, all 48 winning points)
collects her stake plus the whole 1-NEAR pot: 3 NEAR. -/
theorem C2_winner_payout_witness :
    dictLookup "alice"
        (distribute_payouts_new settledState).withdrawable_balances =
      some ((3 * ONE_NEAR : Nat) : Int) :=
  (C2_winner_payout settledState "alice" ⟨2 * ONE_NEAR, 48⟩
      (by decide) rfl rfl).trans (by decide)

/-! ### C8 — bounds on settled balances -/

/-- In `Nat`, a proportional share never exceeds the whole:
`amt * tp / lta ≤ amt` when `tp ≤ lta`. -/
theorem mul_div_le_of_le (amt tp lta : Nat) (h : tp ≤ lta) :
    amt * tp / lta ≤ amt := by
  rcases Nat.eq_zero_or_pos lta with h0 | h0
  · subst h0
    simp [Nat.le_zero.mp h]
  · calc amt * tp / lta ≤ amt * lta / lta :=
        Nat.div_le_div_right (Nat.mul_le_mul_left amt h)
      _ = amt := Nat.mul_div_cancel amt h0

/-- A settled loser refund is never negative. -/
theorem loserBalance_nonneg (tp lta : Nat) (b : BetInfo) :
    0 ≤ loserBalance tp lta b := by
  unfold loserBalance
  split
  · rename_i hc
    have := mul_div_le_of_le b.amount tp lta hc
    omega
  · exact le_refl 0

/-- A settled loser refund never exceeds the loser's stake. -/
theorem loserBalance_le_amount (tp lta : Nat) (b : BetInfo) :
    loserBalance tp lta b ≤ (b.amount : Int) := by
  unfold loserBalance
  split
  · exact sub_le_self _ (Int.natCast_nonneg _)
  · exact Int.natCast_nonneg _

/-- A winner's payout is never negative. -/
theorem winnerBalance_nonneg (ps wtp : Nat) (b : BetInfo) :
    0 ≤ winnerBalance ps wtp b :=
  Int.natCast_nonneg _

/-- A winner's payout is at most stake plus the whole pot, as long as the
record's points do not exceed the side's total. -/
theorem winnerBalance_le (ps wtp : Nat) (b : BetInfo)
    (hp : b.points ≤ wtp) :
    winnerBalance ps wtp b ≤ (b.amount : Int) + (ps : Int) := by
  unfold winnerBalance
  split
  · rename_i hw
    have hle : b.points * ps / wtp ≤ ps := by
      calc b.points * ps / wtp ≤ wtp * ps / wtp :=
          Nat.div_le_div_right (Nat.mul_le_mul_right ps hp)
        _ = ps := Nat.mul_div_cancel_left ps hw
    push_cast
    exact add_le_add_left (by exact_mod_cast hle) _
  · push_cast
    omega

/-- Distinct ledger keys are preserved by the winning-side selection. -/
theorem keysNodup_winningBets (s : ContractState)
    (hA : keysNodup s.team_a_bets) (hB : keysNodup s.team_b_bets) :
    keysNodup (winningBets s) := by
  unfold winningBets
  split
  · exact hA
  · split
    · exact hB
    · exact List.nodup_nil

/-- Distinct ledger keys are preserved by the losing-side selection. -/
theorem keysNodup_losingBets (s : ContractState)
    (hA : keysNodup s.team_a_bets) (hB : keysNodup s.team_b_bets) :
    keysNodup (losingBets s) := by
  unfold losingBets
  split
  · exact hA
  · exact hB

/-- A winning-side record's stake is part of its owner's total stake. -/
theorem amount_le_totalStake_winning (s : ContractState) (u : String)
    (b : BetInfo) (h : dictLookup u (winningBets s) = some b) :
    b.amount ≤ totalStakeOf s u := by
  unfold winningBets at h
  unfold totalStakeOf
  split at h
  · rw [h]
    simp [Nat.le_add_right]
  · split at h
    · rw [h]
      simp [Nat.le_add_left]
    · simp [dictLookup] at h

/-- A losing-side record's stake is part of its owner's total stake. -/
theorem amount_le_totalStake_losing (s : ContractState) (u : String)
    (b : BetInfo) (h : dictLookup u (losingBets s) = some b) :
    b.amount ≤ totalStakeOf s u := by
  unfold losingBets at h
  unfold totalStakeOf
  split at h
  · rw [h]
    simp [Nat.le_add_right]
  · rw [h]
    simp [Nat.le_add_left]

/-- Removing one key leaves every other key's lookup unchanged. -/
theorem dictLookup_remove_ne {β : Type} {k k' : String} (d : Dict β)
    (h : k ≠ k') : dictLookup k (dictRemove k' d) = dictLookup k d := by
  induction d with
  | nil => rfl
  | cons p rest ih =>
      obtain ⟨k₀, v₀⟩ := p
      by_cases h0 : k' = k₀
      · subst h0
        simp [dictRemove, dictLookup, h]
      · by_cases h1 : k = k₀ <;> simp [dictRemove, dictLookup, h0, h1, ih]

/-- C8: every withdrawable amount the settlement produces is
non-negative; a participant on the winning side stays below their total
stake plus the pot, and a participant on the losing side below their
total stake; and the only other operation touching finalized balances,
`withdraw`, merely deletes the caller's entry and leaves every remaining
balance unchanged, so the bounds persist after every operation. -/
theorem C8_settlement_bounds (s : ContractState) (u : String) (v : Int)
    (hndA : keysNodup s.team_a_bets) (hndB : keysNodup s.team_b_bets)
    (hv : dictLookup u
        (distribute_payouts_new s).withdrawable_balances = some v) :
    (0 ≤ v ∧
     (dictLookup u (winningBets s) ≠ none →
        v ≤ (totalStakeOf s u : Int) + ((s.pot_size * ONE_NEAR : Nat) : Int)) ∧
     (dictLookup u (losingBets s) ≠ none → v ≤ (totalStakeOf s u : Int))) ∧
    (∀ (t : ContractState) (u₀ : String) (s' : ContractState) (amt : Int),
       keysNodup t.withdrawable_balances →
       withdraw t u₀ = Except.ok (s', amt) →
       ∀ (u' : String) (w : Int),
         dictLookup u' s'.withdrawable_balances = some w →
         dictLookup u' t.withdrawable_balances = some w) := by
  refine ⟨?_, ?_⟩
  case refine_2 =>
    intro t u₀ s' amt hndt hok u' w hlk
    simp only [withdraw] at hok
    split at hok
    · cases hok
    · split at hok
      · cases hok
      · split at hok
        · cases hok
        · have hstate :
              ({ t with
                  withdrawable_balances :=
                    dictRemove u₀ t.withdrawable_balances } : ContractState)
                = s' :=
            congrArg Prod.fst (Except.ok.inj hok)
          subst hstate
          have hlk' : dictLookup u'
              (dictRemove u₀ t.withdrawable_balances) = some w := hlk
          by_cases hu : u' = u₀
          · subst hu
            rw [dictLookup_remove_self u' t.withdrawable_balances hndt] at hlk'
            cases hlk'
          · rw [dictLookup_remove_ne _ hu] at hlk'
            exact hlk'
  have hndW := keysNodup_winningBets s hndA hndB
  have hndL := keysNodup_losingBets s hndA hndB
  simp only [distribute_payouts_new] at hv
  rcases hl : dictLookup u (losingBets s) with _ | bl
  · rw [foldl_insert_lookup_of_notmem _ u _ _ hl] at hv
    rcases hw : dictLookup u (winningBets s) with _ | bw
    · rw [foldl_insert_lookup_of_notmem _ u _ _ hw] at hv
      simp [dictLookup] at hv
    · rw [foldl_insert_lookup_of_mem _ u bw _ _ hndW hw] at hv
      have hv' : v =
          winnerBalance (s.pot_size * ONE_NEAR) (winningTotalPoints s) bw :=
        (Option.some.inj hv).symm
      subst hv'
      refine ⟨winnerBalance_nonneg _ _ _, fun _ => ?_, fun hc => absurd rfl hc⟩
      have hpts : bw.points ≤ winningTotalPoints s :=
        points_le_sum u bw (winningBets s) hw
      calc winnerBalance (s.pot_size * ONE_NEAR) (winningTotalPoints s) bw
          ≤ (bw.amount : Int) + ((s.pot_size * ONE_NEAR : Nat) : Int) :=
            winnerBalance_le _ _ _ hpts
        _ ≤ (totalStakeOf s u : Int) + ((s.pot_size * ONE_NEAR : Nat) : Int) := by
            have := amount_le_totalStake_winning s u bw hw
            omega
  · rw [foldl_insert_lookup_of_mem _ u bl _ _ hndL hl] at hv
    have hv' : v = loserBalance (totalToPay s) (losingTotalAmount s) bl :=
      (Option.some.inj hv).symm
    subst hv'
    have hamt : bl.amount ≤ totalStakeOf s u :=
      amount_le_totalStake_losing s u bl hl
    have hle := loserBalance_le_amount (totalToPay s) (losingTotalAmount s) bl
    refine ⟨loserBalance_nonneg _ _ _, fun _ => ?_, fun _ => by omega⟩
    have hpot : (0 : Int) ≤ ((s.pot_size * ONE_NEAR : Nat) : Int) :=
      Int.natCast_nonneg _
    omega

/-- C8 witness: `alice`'s settled 3-NEAR balance in `settledState` is
non-negative and satisfies both bounds. -/
theorem C8_settlement_bounds_witness :
    0 ≤ ((3 * ONE_NEAR : Nat) : Int) ∧
    (dictLookup "alice" (winningBets settledState) ≠ none →
       ((3 * ONE_NEAR : Nat) : Int) ≤
         (totalStakeOf settledState "alice" : Int) +
           ((settledState.pot_size * ONE_NEAR : Nat) : Int)) ∧
    (dictLookup "alice" (losingBets settledState) ≠ none →
       ((3 * ONE_NEAR : Nat) : Int) ≤
         (totalStakeOf settledState "alice" : Int)) :=
  (C8_settlement_bounds settledState "alice" ((3 * ONE_NEAR : Nat) : Int)
    (by decide) (by decide) rfl).1

end Casino
